import Mathlib

/-!
Shallow embedding of the McPUFF perturbation/reduction core
(`package_McPUFF/McPUFF_program.py`, `McPUFF_Perturbed_Data.py`).

Conventions of the embedding:
* numpy float values are modelled as exact rationals (`ℚ`);
* the raw GEF ".lmd" event table is a `List Event` (one record per row,
  with the lmd+ superset of columns; the lmd layout is the projection that
  ignores the neutron/gamma columns);
* the fixed-capacity 300-row zero-padded output array is modelled as the
  list of its populated (retained) rows; `np.unique` enumerates keys in
  sorted order while the model enumerates them in first-occurrence order,
  a permutation that none of the verified properties depend on;
* randomness is passed in explicitly: every `np.random...` draw becomes an
  explicit argument (a stream `ℕ → ℚ` or a single `ℚ`);
* `sys.exit` / fatal termination is modelled by `Option` with `none`;
* Python `round(x, 9)` (round half to even at the 9th decimal) is modelled
  exactly on `ℚ` by `round9`;
* `np.std(_, ddof=1)` is the square root of the sample variance; the model
  stores the radicand (`sampleVarNm1`), since the square root is a strictly
  monotone bijection on nonnegatives this determines the stored column.
-/

namespace McPUFF

/-- Raw GEF ".lmd" event row. Columns of `FY` in `Reaction.GEF_FY_for_TALYS`:
[0]=Z1, [1]=A1, [2]=Z2, [3]=A2, [4]=TKE, [5]=E* of first-listed fragment,
[6]=E* of second-listed fragment, and with the GEF "lmd+" option
[7]/[8]=neutron energies (first/second fragment), [9]/[10]=gamma energies. -/
structure Event where
  Z1 : ℚ
  A1 : ℚ
  Z2 : ℚ
  A2 : ℚ
  TKE : ℚ
  E1 : ℚ
  E2 : ℚ
  En1 : ℚ
  En2 : ℚ
  Eg1 : ℚ
  Eg2 : ℚ
deriving DecidableEq, Repr

/-- One populated row of the `FY_TALYS` summary table built by
`Reaction.GEF_FY_for_TALYS`: columns [0..4] are Z1, A1, Z2, A2, yield;
[5]=mean TKE, [6]=mean TXE, [7]=mean E* light, [8]=std E* light (stored
here as its square `W1sq`), [9]/[10] the same for the heavy fragment, and
in lmd+ mode [11..18] the neutron/gamma means and stds analogously. -/
structure SummaryRow where
  Z1 : ℚ
  A1 : ℚ
  Z2 : ℚ
  A2 : ℚ
  yld : ℚ
  TKE : ℚ
  TXE : ℚ
  E1mean : ℚ
  W1sq : ℚ
  E2mean : ℚ
  W2sq : ℚ
  En1mean : ℚ
  Wn1sq : ℚ
  En2mean : ℚ
  Wn2sq : ℚ
  Eg1mean : ℚ
  Wg1sq : ℚ
  Eg2mean : ℚ
  Wg2sq : ℚ
deriving DecidableEq, Repr

/-- Multi-chance test of `GEF_FY_for_TALYS`: the source deletes the rows
with `FY[:,1]+FY[:,3] != A_compound`, i.e. keeps a row iff the recorded
fragment mass numbers sum to the compound mass number. -/
def massOK (A_compound : ℚ) (e : Event) : Bool :=
  decide (e.A1 + e.A2 = A_compound)

/-- Light/heavy canonicalization of `GEF_FY_for_TALYS`: where
`FY[:,1] > FY[:,3]` the source swaps columns 0↔2 and 1↔3 (the two (Z,A)
pairs) in place; all other columns of the row are left untouched. -/
def canon (e : Event) : Event :=
  if e.A2 < e.A1 then
    { e with Z1 := e.Z2, Z2 := e.Z1, A1 := e.A2, A2 := e.A1 }
  else e

/-- Event list after the multi-chance filter and the canonicalization swap,
in source order (filter first, then swap, as in the source). -/
def canonEvents (A_compound : ℚ) (FY : List Event) : List Event :=
  (FY.filter (massOK A_compound)).map canon

/-- Grouping key of `np.unique(FY[:,0:4], ...)`: the (Z1, A1, Z2, A2)
columns of a row. -/
def evKey (e : Event) : ℚ × ℚ × ℚ × ℚ :=
  (e.Z1, e.A1, e.Z2, e.A2)

/-- Rows of `evs` whose key columns equal `k`
(`(row == FY[:,0:4]).all(axis=1)` in the source). -/
def matchingEvents (evs : List Event) (k : ℚ × ℚ × ℚ × ℚ) : List Event :=
  evs.filter (fun e => decide (evKey e = k))

/-- Occurrence count of a unique key (`unique_counts` in the source). -/
def keyCount (evs : List Event) (k : ℚ × ℚ × ℚ × ℚ) : ℕ :=
  (matchingEvents evs k).length

/-- The unique keys of the table (`unique_yields` of `np.unique`; the model
lists them in first-occurrence instead of sorted order). -/
def uniqueKeys (evs : List Event) : List (ℚ × ℚ × ℚ × ℚ) :=
  (evs.map evKey).dedup

/-- Number of unique keys occurring exactly once:
`ignored_events = np.count_nonzero(unique_counts == 1)`. -/
def singletonKeyCount (evs : List Event) : ℕ :=
  ((uniqueKeys evs).filter (fun k => decide (keyCount evs k = 1))).length

/-- The retained keys: `np.nonzero(unique_counts > 1)`. -/
def retainedKeys (evs : List Event) : List (ℚ × ℚ × ℚ × ℚ) :=
  (uniqueKeys evs).filter (fun k => decide (1 < keyCount evs k))

/-- Arithmetic mean of a list (`np.mean` with exact arithmetic). -/
def listMean (xs : List ℚ) : ℚ :=
  xs.sum / (xs.length : ℚ)

/-- Radicand of `np.std(xs, ddof=1)`: the sample variance with
denominator n−1; the source stores its square root. -/
def sampleVarNm1 (xs : List ℚ) : ℚ :=
  ((xs.map (fun x => (x - listMean xs) ^ 2)).sum) / ((xs.length : ℚ) - 1)

/-- One populated row of `FY_TALYS` for retained key `k`, with the yield
denominator `denom` passed in as in the source
(`unique_counts[...]/(len(FY[:,0])-ignored_events)` and the per-key
means/stds over the rows matching `k`). -/
def mkRow (evs : List Event) (denom : ℚ) (k : ℚ × ℚ × ℚ × ℚ) : SummaryRow :=
  { Z1 := k.1
    A1 := k.2.1
    Z2 := k.2.2.1
    A2 := k.2.2.2
    yld := (((matchingEvents evs k).length : ℚ)) / denom
    TKE := listMean ((matchingEvents evs k).map Event.TKE)
    TXE := listMean ((matchingEvents evs k).map (fun e => e.E1 + e.E2))
    E1mean := listMean ((matchingEvents evs k).map Event.E1)
    W1sq := sampleVarNm1 ((matchingEvents evs k).map Event.E1)
    E2mean := listMean ((matchingEvents evs k).map Event.E2)
    W2sq := sampleVarNm1 ((matchingEvents evs k).map Event.E2)
    En1mean := listMean ((matchingEvents evs k).map Event.En1)
    Wn1sq := sampleVarNm1 ((matchingEvents evs k).map Event.En1)
    En2mean := listMean ((matchingEvents evs k).map Event.En2)
    Wn2sq := sampleVarNm1 ((matchingEvents evs k).map Event.En2)
    Eg1mean := listMean ((matchingEvents evs k).map Event.Eg1)
    Wg1sq := sampleVarNm1 ((matchingEvents evs k).map Event.Eg1)
    Eg2mean := listMean ((matchingEvents evs k).map Event.Eg2)
    Wg2sq := sampleVarNm1 ((matchingEvents evs k).map Event.Eg2) }

/-- The Yield Reducer `Reaction.GEF_FY_for_TALYS`: multi-chance filter,
light/heavy swap, singleton removal, per-key yield fraction and
mean/std aggregation. Returns the populated summary rows together with
`ignored_events` (the singleton-key count). -/
def GEF_FY_for_TALYS (A_compound : ℚ) (FY : List Event) :
    List SummaryRow × ℕ :=
  ((retainedKeys (canonEvents A_compound FY)).map
      (mkRow (canonEvents A_compound FY)
        (((canonEvents A_compound FY).length : ℚ)
          - (singletonKeyCount (canonEvents A_compound FY) : ℚ))),
    singletonKeyCount (canonEvents A_compound FY))

/-! Helper lemmas about the reducer. -/

theorem canon_TKE (e : Event) : (canon e).TKE = e.TKE := by
  unfold canon; split <;> rfl

theorem canon_E1 (e : Event) : (canon e).E1 = e.E1 := by
  unfold canon; split <;> rfl

theorem canon_E2 (e : Event) : (canon e).E2 = e.E2 := by
  unfold canon; split <;> rfl

theorem canon_En1 (e : Event) : (canon e).En1 = e.En1 := by
  unfold canon; split <;> rfl

theorem canon_En2 (e : Event) : (canon e).En2 = e.En2 := by
  unfold canon; split <;> rfl

theorem canon_Eg1 (e : Event) : (canon e).Eg1 = e.Eg1 := by
  unfold canon; split <;> rfl

theorem canon_Eg2 (e : Event) : (canon e).Eg2 = e.Eg2 := by
  unfold canon; split <;> rfl

theorem sum_map_add_nat {α : Type} (L : List α) (f g : α → ℕ) :
    (L.map fun x => f x + g x).sum = (L.map f).sum + (L.map g).sum := by
  induction L with
  | nil => rfl
  | cons a t ih => simp only [List.map_cons, List.sum_cons, ih]; omega

theorem sum_indicator_zero {α : Type} [DecidableEq α] (L : List α) (a : α) (h : a ∉ L) :
    (L.map fun k => if a = k then 1 else 0).sum = 0 := by
  induction L with
  | nil => rfl
  | cons b t ih =>
    have hab : a ≠ b := fun hh => h (hh ▸ List.mem_cons_self b t)
    have hat : a ∉ t := fun hh => h (List.mem_cons_of_mem b hh)
    simp only [List.map_cons, List.sum_cons, if_neg hab, ih hat]

theorem sum_indicator_nodup {α : Type} [DecidableEq α] (L : List α) (a : α)
    (hnd : L.Nodup) (ha : a ∈ L) :
    (L.map fun k => if a = k then 1 else 0).sum = 1 := by
  induction L with
  | nil => cases ha
  | cons b t ih =>
    rcases List.mem_cons.1 ha with rfl | hat
    · have hnt : a ∉ t := (List.nodup_cons.1 hnd).1
      simp [sum_indicator_zero t a hnt]
    · have hab : a ≠ b := fun hh => ((List.nodup_cons.1 hnd).1 (hh ▸ hat)).elim
      simp only [List.map_cons, List.sum_cons, if_neg hab,
        ih (List.nodup_cons.1 hnd).2 hat]

theorem sum_cnt_dedup {α : Type} [DecidableEq α] (l : List α) :
    (l.dedup.map fun k => l.countP fun x => decide (x = k)).sum = l.length := by
  induction l with
  | nil => rfl
  | cons a t ih =>
    have hpt : ∀ k, ((a :: t).countP fun x => decide (x = k))
        = (t.countP fun x => decide (x = k)) + (if a = k then 1 else 0) := by
      intro k
      by_cases h : a = k <;> simp [List.countP_cons, h]
    have hmapeq : (t.dedup.map fun k => (a :: t).countP fun x => decide (x = k))
        = t.dedup.map fun k =>
            (t.countP fun x => decide (x = k)) + (if a = k then 1 else 0) :=
      List.map_congr_left fun k _ => hpt k
    by_cases ha : a ∈ t
    · rw [List.dedup_cons_of_mem ha, hmapeq, sum_map_add_nat, ih,
        sum_indicator_nodup t.dedup a (List.nodup_dedup t) (List.mem_dedup.2 ha),
        List.length_cons]
    · rw [List.dedup_cons_of_not_mem ha, List.map_cons, List.sum_cons, hpt a,
        hmapeq, sum_map_add_nat, ih,
        sum_indicator_zero t.dedup a (fun hh => ha (List.mem_dedup.1 hh))]
      have hz : (t.countP fun x => decide (x = a)) = 0 :=
        List.countP_eq_zero.2 fun x hx => by
          simp only [decide_eq_true_eq]
          exact fun hh => ha (hh ▸ hx)
      rw [hz, if_pos rfl, List.length_cons]
      omega

theorem sum_map_filter_split {α : Type} (L : List α) (f : α → ℕ) (p : α → Bool) :
    ((L.filter p).map f).sum + ((L.filter fun x => !p x).map f).sum = (L.map f).sum := by
  induction L with
  | nil => rfl
  | cons a t ih =>
    by_cases h : p a <;>
      simp only [List.filter_cons, h, Bool.not_true, Bool.not_false, List.map_cons,
        List.sum_cons, ite_true, ite_false, Bool.false_eq_true, if_false, if_true] <;>
      omega

theorem sum_retained_add_singleton {α : Type} [DecidableEq α] (l : List α) :
    ((l.dedup.filter fun k => decide (1 < l.countP fun x => decide (x = k))).map
        (fun k => l.countP fun x => decide (x = k))).sum
      + (l.dedup.filter fun k => decide ((l.countP fun x => decide (x = k)) = 1)).length
      = l.length := by
  have hsplit := sum_map_filter_split l.dedup (fun k => l.countP fun x => decide (x = k))
    (fun k => decide (1 < l.countP fun x => decide (x = k)))
  have hcongr : (l.dedup.filter fun k => !decide (1 < l.countP fun x => decide (x = k)))
      = l.dedup.filter fun k => decide ((l.countP fun x => decide (x = k)) = 1) := by
    apply List.filter_congr
    intro k hk
    have hpos : 0 < l.countP fun x => decide (x = k) := by
      rw [List.countP_eq_length_filter]
      have hm : k ∈ l.filter fun x => decide (x = k) :=
        List.mem_filter.2 ⟨List.mem_dedup.1 hk, by simp⟩
      exact List.length_pos.2 (List.ne_nil_of_mem hm)
    by_cases h1 : 1 < l.countP fun x => decide (x = k)
    · have h2 : ¬((l.countP fun x => decide (x = k)) = 1) := by omega
      simp [h1, h2]
    · have h2 : (l.countP fun x => decide (x = k)) = 1 := by omega
      simp [h1, h2]
  have hones : ((l.dedup.filter fun k => decide ((l.countP fun x => decide (x = k)) = 1)).map
      (fun k => l.countP fun x => decide (x = k))).sum
      = (l.dedup.filter fun k => decide ((l.countP fun x => decide (x = k)) = 1)).length := by
    have hmap : ((l.dedup.filter fun k => decide ((l.countP fun x => decide (x = k)) = 1)).map
        (fun k => l.countP fun x => decide (x = k)))
        = (l.dedup.filter fun k => decide ((l.countP fun x => decide (x = k)) = 1)).map
            fun _ => 1 := by
      apply List.map_congr_left
      intro k hk
      simpa using (List.mem_filter.1 hk).2
    rw [hmap, show (fun _ : α => (1 : ℕ)) = Function.const α 1 from rfl, List.map_const,
      List.sum_replicate, smul_eq_mul, mul_one]
  rw [← sum_cnt_dedup l, ← hsplit, hcongr, hones]

theorem keyCount_eq_countP (evs : List Event) (k : ℚ × ℚ × ℚ × ℚ) :
    keyCount evs k = (evs.map evKey).countP fun x => decide (x = k) := by
  unfold keyCount matchingEvents
  rw [← List.countP_eq_length_filter, List.countP_map]
  rfl

theorem sum_map_div (ks : List (ℚ × ℚ × ℚ × ℚ)) (f : ℚ × ℚ × ℚ × ℚ → ℚ) (d : ℚ) :
    (ks.map fun k => f k / d).sum = (ks.map f).sum / d := by
  induction ks with
  | nil => simp
  | cons a t ih => simp [ih, add_div]

theorem sum_map_natCast (ks : List (ℚ × ℚ × ℚ × ℚ)) (f : ℚ × ℚ × ℚ × ℚ → ℕ) :
    (ks.map fun k => ((f k : ℚ))).sum = (((ks.map f).sum : ℕ) : ℚ) := by
  induction ks with
  | nil => simp
  | cons a t ih => simp [ih]

/-! Example tables used by witnesses and counterexamples. -/

/-- Event row in the 7-column GEF "lmd" layout (neutron/gamma columns 0). -/
def ev7 (z1 a1 z2 a2 tke e1 e2 : ℚ) : Event :=
  ⟨z1, a1, z2, a2, tke, e1, e2, 0, 0, 0, 0⟩

/-- Raw table with two identical physical splits (4+6 = 10) and one
multi-chance event (4+5 ≠ 10) for compound mass 10. -/
def exFY1 : List Event :=
  [ev7 1 4 1 6 10 1 2, ev7 1 4 1 6 12 3 4, ev7 1 4 1 5 10 1 2]

/-- Raw table whose only (duplicated) split is multi-chance for compound
mass 10 (4+5 = 9 ≠ 10). -/
def exFY2 : List Event :=
  [ev7 1 4 1 5 10 1 2, ev7 1 4 1 5 10 1 2]

/-- The single populated summary row the reducer produces on `exFY1`. -/
def exRow1 : SummaryRow :=
  ⟨1, 4, 1, 6, 1, 11, 5, 2, 2, 3, 2, 0, 0, 0, 0, 0, 0, 0, 0⟩

/-- C1 (counterexample): on `exFY1` (3 raw events, one of them multi-chance,
no singleton keys) the code assigns the retained key (1,4,1,6) the yield
2/(2−0) = 1, while the claimed formula occurrence/(raw_total − singletons)
gives 2/(3−0) = 2/3; so the claimed denominator (raw event count before any
filtering, minus singletons) is not the one used. -/
theorem C1_counterexample :
    (GEF_FY_for_TALYS 10 exFY1).1.map SummaryRow.yld = [1] ∧
    (GEF_FY_for_TALYS 10 exFY1).2 = 0 ∧
    exFY1.length = 3 ∧
    keyCount (canonEvents 10 exFY1) (1, 4, 1, 6) = 2 ∧
    ¬((1 : ℚ) = (2 : ℚ) / ((3 : ℚ) - (0 : ℚ))) := by
  refine ⟨?_, ?_, ?_, ?_, ?_⟩ <;>
    norm_num [GEF_FY_for_TALYS, retainedKeys, uniqueKeys, singletonKeyCount, keyCount,
      matchingEvents, canonEvents, exFY1, ev7, massOK, canon, List.filter, evKey,
      List.dedup, mkRow, listMean, sampleVarNm1]

/-- C1 (amended): every populated summary row's yield equals its key's
occurrence count divided by (number of events surviving the multi-chance
filter − number of singleton keys); the denominator is the post-filter
event count, not the raw event count. -/
theorem C1_yield_denominator (A_compound : ℚ) (FY : List Event) (row : SummaryRow)
    (hrow : row ∈ (GEF_FY_for_TALYS A_compound FY).1) :
    row.yld = (keyCount (canonEvents A_compound FY) (row.Z1, row.A1, row.Z2, row.A2) : ℚ)
      / (((canonEvents A_compound FY).length : ℚ)
          - (singletonKeyCount (canonEvents A_compound FY) : ℚ)) := by
  obtain ⟨k, hk, rfl⟩ := List.mem_map.1 hrow
  rfl

/-- Witness for `C1_yield_denominator` at the concrete table `exFY1`. -/
theorem C1_yield_denominator_witness :
    exRow1 ∈ (GEF_FY_for_TALYS 10 exFY1).1 ∧
    exRow1.yld = (keyCount (canonEvents 10 exFY1) (exRow1.Z1, exRow1.A1, exRow1.Z2, exRow1.A2) : ℚ)
      / (((canonEvents 10 exFY1).length : ℚ)
          - (singletonKeyCount (canonEvents 10 exFY1) : ℚ)) := by
  have hmem : exRow1 ∈ (GEF_FY_for_TALYS 10 exFY1).1 := by
    norm_num [GEF_FY_for_TALYS, retainedKeys, uniqueKeys, singletonKeyCount, keyCount,
      matchingEvents, canonEvents, exFY1, ev7, massOK, canon, List.filter, evKey,
      List.dedup, mkRow, listMean, sampleVarNm1, exRow1]
  exact ⟨hmem, C1_yield_denominator 10 exFY1 exRow1 hmem⟩

/-- C2 (counterexample): the raw table `exFY2` contains a unique
fragment-split occurring twice, yet both copies are multi-chance events, so
the reduced summary is empty and its yields sum to 0, not 1 (and 0 is not
within 1e-5 of 1). -/
theorem C2_counterexample :
    (∃ e ∈ exFY2, 2 ≤ List.count (evKey e) (exFY2.map evKey)) ∧
    (((GEF_FY_for_TALYS 10 exFY2).1).map SummaryRow.yld).sum = 0 ∧
    ¬(|(((GEF_FY_for_TALYS 10 exFY2).1).map SummaryRow.yld).sum - 1| ≤ 1 / 100000) := by
  refine ⟨⟨ev7 1 4 1 5 10 1 2, ?_, ?_⟩, ?_, ?_⟩ <;>
    norm_num [GEF_FY_for_TALYS, retainedKeys, uniqueKeys, singletonKeyCount, keyCount,
      matchingEvents, canonEvents, exFY2, ev7, massOK, canon, List.filter, evKey,
      List.dedup, mkRow, listMean, sampleVarNm1, List.count_cons, abs_le]

/-- C2 (amended): if at least one unique fragment-split among the events
surviving the multi-chance filter (after canonicalization) occurs more than
once, then the yields of the populated summary rows sum to exactly 1. -/
theorem C2_yield_sum_one (A_compound : ℚ) (FY : List Event)
    (hex : ∃ e ∈ canonEvents A_compound FY,
      2 ≤ keyCount (canonEvents A_compound FY) (evKey e)) :
    (((GEF_FY_for_TALYS A_compound FY).1).map SummaryRow.yld).sum = 1 := by
  obtain ⟨e, he, hcnt⟩ := hex
  set evs := canonEvents A_compound FY with hevs
  set l := evs.map evKey with hl
  have hcount : ∀ k, keyCount evs k = l.countP fun x => decide (x = k) := fun k =>
    keyCount_eq_countP evs k
  have hretained : retainedKeys evs
      = l.dedup.filter fun k => decide (1 < l.countP fun x => decide (x = k)) := by
    apply List.filter_congr
    intro k hk
    rw [hcount]
  have hsingle : singletonKeyCount evs
      = (l.dedup.filter fun k => decide ((l.countP fun x => decide (x = k)) = 1)).length := by
    unfold singletonKeyCount
    congr 1
    apply List.filter_congr
    intro k hk
    rw [hcount]
  have hmapyld : ((GEF_FY_for_TALYS A_compound FY).1).map SummaryRow.yld
      = (retainedKeys evs).map
          (fun k => ((keyCount evs k : ℚ))
            / (((evs.length : ℚ)) - (singletonKeyCount evs : ℚ))) := by
    simp only [GEF_FY_for_TALYS, List.map_map, ← hevs]
    rfl
  have hnatmap : ((retainedKeys evs).map fun k => keyCount evs k)
      = ((l.dedup.filter fun k => decide (1 < l.countP fun x => decide (x = k))).map
          fun k => l.countP fun x => decide (x = k)) := by
    rw [hretained]
    exact List.map_congr_left fun k hk => hcount k
  have hnat : ((retainedKeys evs).map fun k => keyCount evs k).sum + singletonKeyCount evs
      = evs.length := by
    rw [hnatmap, hsingle]
    have hlen : l.length = evs.length := by simp [hl]
    rw [← hlen]
    exact sum_retained_add_singleton l
  have hk0 : evKey e ∈ retainedKeys evs := by
    refine List.mem_filter.2 ⟨List.mem_dedup.2 (List.mem_map_of_mem evKey he), ?_⟩
    simp only [decide_eq_true_eq]
    omega
  have hS2 : 2 ≤ ((retainedKeys evs).map fun k => keyCount evs k).sum := by
    have hm : keyCount evs (evKey e) ∈ (retainedKeys evs).map fun k => keyCount evs k :=
      List.mem_map_of_mem _ hk0
    exact le_trans hcnt (List.single_le_sum (fun x _ => Nat.zero_le x) _ hm)
  obtain ⟨S, hSdef⟩ : ∃ S, ((retainedKeys evs).map fun k => keyCount evs k).sum = S := ⟨_, rfl⟩
  rw [hSdef] at hnat hS2
  have hden : (evs.length : ℚ) - (singletonKeyCount evs : ℚ) = (S : ℚ) := by
    have hq : (S : ℚ) + (singletonKeyCount evs : ℚ) = (evs.length : ℚ) := by
      exact_mod_cast hnat
    linarith
  have hSpos : 0 < S := by omega
  have hdenne : (evs.length : ℚ) - (singletonKeyCount evs : ℚ) ≠ 0 := by
    rw [hden]
    exact_mod_cast hSpos.ne'
  rw [hmapyld, sum_map_div, sum_map_natCast, hSdef, ← hden, div_self hdenne]

/-- Witness for `C2_yield_sum_one` at the concrete table `exFY1`. -/
theorem C2_yield_sum_one_witness :
    (∃ e ∈ canonEvents 10 exFY1,
      2 ≤ keyCount (canonEvents 10 exFY1) (evKey e)) ∧
    (((GEF_FY_for_TALYS 10 exFY1).1).map SummaryRow.yld).sum = 1 := by
  have hex : ∃ e ∈ canonEvents 10 exFY1,
      2 ≤ keyCount (canonEvents 10 exFY1) (evKey e) := by
    refine ⟨ev7 1 4 1 6 10 1 2, ?_, ?_⟩ <;>
      norm_num [keyCount, matchingEvents, canonEvents, exFY1, ev7, massOK, canon,
        List.filter, evKey]
  exact ⟨hex, C2_yield_sum_one 10 exFY1 hex⟩

/-- C3: an event whose recorded fragment mass numbers do not sum to the
compound mass number is removed before the swap step (it never reaches the
canonicalized list) and contributes nothing to the summary table or the
singleton count: deleting it from the raw table leaves the reducer output
unchanged. -/
theorem C3_multichance_removed (A_compound : ℚ) (xs ys : List Event) (e : Event)
    (h : e.A1 + e.A2 ≠ A_compound) :
    GEF_FY_for_TALYS A_compound (xs ++ e :: ys) = GEF_FY_for_TALYS A_compound (xs ++ ys) ∧
    canonEvents A_compound (xs ++ e :: ys) = canonEvents A_compound (xs ++ ys) := by
  have hc : canonEvents A_compound (xs ++ e :: ys) = canonEvents A_compound (xs ++ ys) := by
    simp [canonEvents, List.filter_append, List.filter_cons, massOK, h]
  exact ⟨by simp [GEF_FY_for_TALYS, hc], hc⟩

/-- Witness for `C3_multichance_removed` at a concrete table. -/
theorem C3_multichance_removed_witness :
    ((ev7 1 4 1 5 10 1 2).A1 + (ev7 1 4 1 5 10 1 2).A2 ≠ 10) ∧
    GEF_FY_for_TALYS 10 ([ev7 1 4 1 6 10 1 2] ++ ev7 1 4 1 5 10 1 2 :: [ev7 1 4 1 6 12 3 4])
      = GEF_FY_for_TALYS 10 ([ev7 1 4 1 6 10 1 2] ++ [ev7 1 4 1 6 12 3 4]) ∧
    canonEvents 10 ([ev7 1 4 1 6 10 1 2] ++ ev7 1 4 1 5 10 1 2 :: [ev7 1 4 1 6 12 3 4])
      = canonEvents 10 ([ev7 1 4 1 6 10 1 2] ++ [ev7 1 4 1 6 12 3 4]) := by
  have h : (ev7 1 4 1 5 10 1 2).A1 + (ev7 1 4 1 5 10 1 2).A2 ≠ 10 := by
    norm_num [ev7]
  exact ⟨h, (C3_multichance_removed 10 [ev7 1 4 1 6 10 1 2] [ev7 1 4 1 6 12 3 4] _ h).1,
    (C3_multichance_removed 10 [ev7 1 4 1 6 10 1 2] [ev7 1 4 1 6 12 3 4] _ h).2⟩

/-- C9: the canonicalization swap exchanges only the two (Z, A) column
pairs; every energy column keeps its position (so the per-event energy
column lists are unchanged by the swap), and the summary's light-fragment
excitation mean and std columns are computed from column [5], the
originally first-listed fragment's excitation energies. -/
theorem C9_swap_only_ZA (A_compound : ℚ) (FY : List Event) :
    ((canonEvents A_compound FY).map Event.TKE = (FY.filter (massOK A_compound)).map Event.TKE
      ∧ (canonEvents A_compound FY).map Event.E1 = (FY.filter (massOK A_compound)).map Event.E1
      ∧ (canonEvents A_compound FY).map Event.E2 = (FY.filter (massOK A_compound)).map Event.E2
      ∧ (canonEvents A_compound FY).map Event.En1 = (FY.filter (massOK A_compound)).map Event.En1
      ∧ (canonEvents A_compound FY).map Event.En2 = (FY.filter (massOK A_compound)).map Event.En2
      ∧ (canonEvents A_compound FY).map Event.Eg1 = (FY.filter (massOK A_compound)).map Event.Eg1
      ∧ (canonEvents A_compound FY).map Event.Eg2 = (FY.filter (massOK A_compound)).map Event.Eg2) ∧
    (∀ e : Event, e.A2 < e.A1 →
      canon e = ⟨e.Z2, e.A2, e.Z1, e.A1, e.TKE, e.E1, e.E2, e.En1, e.En2, e.Eg1, e.Eg2⟩) ∧
    (∀ row ∈ (GEF_FY_for_TALYS A_compound FY).1,
      row.E1mean = listMean ((matchingEvents (canonEvents A_compound FY)
          (row.Z1, row.A1, row.Z2, row.A2)).map Event.E1) ∧
      row.W1sq = sampleVarNm1 ((matchingEvents (canonEvents A_compound FY)
          (row.Z1, row.A1, row.Z2, row.A2)).map Event.E1)) := by
  refine ⟨⟨?_, ?_, ?_, ?_, ?_, ?_, ?_⟩, ?_, ?_⟩
  · simp only [canonEvents, List.map_map]
    exact List.map_congr_left fun e _ => canon_TKE e
  · simp only [canonEvents, List.map_map]
    exact List.map_congr_left fun e _ => canon_E1 e
  · simp only [canonEvents, List.map_map]
    exact List.map_congr_left fun e _ => canon_E2 e
  · simp only [canonEvents, List.map_map]
    exact List.map_congr_left fun e _ => canon_En1 e
  · simp only [canonEvents, List.map_map]
    exact List.map_congr_left fun e _ => canon_En2 e
  · simp only [canonEvents, List.map_map]
    exact List.map_congr_left fun e _ => canon_Eg1 e
  · simp only [canonEvents, List.map_map]
    exact List.map_congr_left fun e _ => canon_Eg2 e
  · intro e he
    unfold canon
    rw [if_pos he]
  · intro row hrow
    obtain ⟨k, hk, rfl⟩ := List.mem_map.1 hrow
    exact ⟨rfl, rfl⟩

/-- Witness for `C9_swap_only_ZA`: the energy columns of `exFY1` survive the
swap unchanged, the concrete event (Z1,A1,Z2,A2) = (2,6,1,4) is swapped to
(1,4,2,6) with its energies in place, and the light excitation statistics
of the populated row of `exFY1` come from the E1 column. -/
theorem C9_swap_only_ZA_witness :
    ((canonEvents 10 exFY1).map Event.E1 = (exFY1.filter (massOK 10)).map Event.E1) ∧
    ((ev7 2 6 1 4 10 1 2).A2 < (ev7 2 6 1 4 10 1 2).A1) ∧
    (canon (ev7 2 6 1 4 10 1 2) = ⟨1, 4, 2, 6, 10, 1, 2, 0, 0, 0, 0⟩) ∧
    (exRow1 ∈ (GEF_FY_for_TALYS 10 exFY1).1) ∧
    (exRow1.E1mean = listMean ((matchingEvents (canonEvents 10 exFY1)
        (exRow1.Z1, exRow1.A1, exRow1.Z2, exRow1.A2)).map Event.E1)) := by
  have hlt : (ev7 2 6 1 4 10 1 2).A2 < (ev7 2 6 1 4 10 1 2).A1 := by norm_num [ev7]
  have hmem : exRow1 ∈ (GEF_FY_for_TALYS 10 exFY1).1 := by
    norm_num [GEF_FY_for_TALYS, retainedKeys, uniqueKeys, singletonKeyCount, keyCount,
      matchingEvents, canonEvents, exFY1, ev7, massOK, canon, List.filter, evKey,
      List.dedup, mkRow, listMean, sampleVarNm1, exRow1]
  exact ⟨(C9_swap_only_ZA 10 exFY1).1.2.1, hlt,
    (C9_swap_only_ZA 10 exFY1).2.1 _ hlt, hmem,
    ((C9_swap_only_ZA 10 exFY1).2.2 exRow1 hmem).1⟩

/-! Perturbation side: `Modified_Parameter`, its sampler and perturber,
the per-parameter scheduling loop, and the TMC-mode classes. -/

/-- GEF parameters whose default value is zero (the list
`special_case_parameters` in
`Modified_Parameter.create_perturbed_parameter_value`). -/
def special_case_parameters : List String :=
  ["_Delta_S0", "P_att_pol2", "P_att_pol3", "kappa", "Epot_shift",
    "SIGDEFO_slope", "ZPOL1", "P_n_x", "T_orbital"]

/-- Round to the nearest integer, ties to even (the tie rule of Python's
built-in `round`). -/
def rhe (x : ℚ) : ℤ :=
  if x - ⌊x⌋ < 1 / 2 then ⌊x⌋
  else if 1 / 2 < x - ⌊x⌋ then ⌊x⌋ + 1
  else if 2 ∣ ⌊x⌋ then ⌊x⌋ else ⌊x⌋ + 1

/-- Python `round(x, 9)` modelled exactly on `ℚ`. -/
def round9 (x : ℚ) : ℚ :=
  ((rhe (x * 10 ^ 9) : ℤ) : ℚ) / 10 ^ 9

/-- `Modified_Parameter.create_perturbed_parameter_value`. The fresh draws
made inside the special-case branches (`np.random.rand(1)` for "uniform",
`np.random.default_rng().normal(0.0, 0.03)` for "normal") are passed in
explicitly as `special_case_rand_num`; the special-case "uniform" branch
maps a draw u ∈ [0,1) to `-0.5 + u*2*0.5` with the scaling constant 0.5.
The unknown-distribution fall-through only prints, returning Python `None`
(`none` here). All returned values are rounded to 9 decimals. -/
def create_perturbed_parameter_value (param_name : String) (rand_num : ℚ)
    (unpert_param_val : ℚ) (distribution_flag : String)
    (special_case_rand_num : ℚ) : Option ℚ :=
  if distribution_flag = "uniform" then
    if param_name ∈ special_case_parameters then
      some (round9 (-(1 / 2 : ℚ) + special_case_rand_num * 2 * (1 / 2)))
    else
      some (round9 ((unpert_param_val / |unpert_param_val|) * rand_num))
  else if distribution_flag = "normal" then
    if param_name ∈ special_case_parameters then
      some (round9 special_case_rand_num)
    else
      some (round9 rand_num)
  else if distribution_flag = "max-min" then
    if param_name ∈ special_case_parameters then
      some (round9 (rand_num - 1))
    else
      some (round9 (unpert_param_val * rand_num))
  else
    none

/-- `Random_Parameter_value.__init__`: the constructor-set fields (the
result fields populated later in the trial are not part of the counted
structure and are omitted). -/
structure Random_Parameter_value where
  param_name : String
  unpert_param_val : ℚ
  random_value : ℚ
  enumeration_rand_num : ℕ
deriving DecidableEq, Repr

/-- The `Modified_Parameter` object: parameter name, nominal value, the
sampled random-number list, and the per-trial result objects appended by
the scheduler. -/
structure Modified_Parameter where
  param_name : String
  unpert_param_val : ℚ
  list_of_rand_num : List ℚ
  list_of_Random_Parameter_Value_objects : List Random_Parameter_value
deriving DecidableEq, Repr

/-- `Modified_Parameter.__init__`. For "uniform" the source draws
`num_of_rands` values from `[lower_lim, upper_lim)` with
`upper_lim = |v| + 0.5|v|`, `lower_lim = |v| - 0.5|v|`; the model obtains
them as `lower_lim + u * (upper_lim - lower_lim)` from an explicit stream
`rng` of unit draws. For "normal" the draws of `normal(v, GEF_st_dev)` are
the stream values themselves. For "max-min" the source assigns the fixed
(user-edited) list `[1, 1.5]`, ignoring `num_of_rands` and consuming no
randomness. Any other flag hits `sys.exit`. -/
def Modified_Parameter.init (param_name : String) (unpert_param_val : ℚ)
    (num_of_rands : ℕ) (distribution_flag : String) (rng : ℕ → ℚ) :
    Option Modified_Parameter :=
  if distribution_flag = "uniform" then
    some { param_name := param_name
           unpert_param_val := unpert_param_val
           list_of_rand_num :=
             (List.range num_of_rands).map fun i =>
               (|unpert_param_val| - (1 / 2) * |unpert_param_val|)
                 + rng i * ((|unpert_param_val| + (1 / 2) * |unpert_param_val|)
                     - (|unpert_param_val| - (1 / 2) * |unpert_param_val|))
           list_of_Random_Parameter_Value_objects := [] }
  else if distribution_flag = "normal" then
    some { param_name := param_name
           unpert_param_val := unpert_param_val
           list_of_rand_num := (List.range num_of_rands).map rng
           list_of_Random_Parameter_Value_objects := [] }
  else if distribution_flag = "max-min" then
    some { param_name := param_name
           unpert_param_val := unpert_param_val
           list_of_rand_num := [1, 3 / 2]
           list_of_Random_Parameter_Value_objects := [] }
  else
    none

/-- `Reaction.perturbed_calculations_single_parameter`: builds the
`Modified_Parameter`, submits one `create_perturbed_FY` trial per element
of `list_of_rand_num` (with its enumeration index) and appends every
result. `runTrial` stands for the trial execution; completion order is
abstracted to submission order (only counts and multisets of results are
used by the verified properties). A fatal error exits (`none`). -/
def perturbed_calculations_single_parameter (key : String)
    (unpert_param_value : ℚ) (num_of_rand : ℕ) (distribution_flag : String)
    (rng : ℕ → ℚ) (runTrial : ℕ → ℚ → Random_Parameter_value) :
    Option Modified_Parameter :=
  match Modified_Parameter.init key unpert_param_value num_of_rand distribution_flag rng with
  | none => none
  | some mp =>
      some { mp with
        list_of_Random_Parameter_Value_objects :=
          mp.list_of_rand_num.enum.map fun p => runTrial p.1 p.2 }

/-- The `Single_Parameters` scheduling loop of `Reaction.__init__`: one
Parameter Group (`Modified_Parameter` object) per entry of the parameter
dictionary; a fatal trial aborts the whole campaign (`sys.exit`),
modelled by propagating `none`. -/
def perturbed_calculations_all_parameters :
    List (String × ℚ) → ℕ → String → (ℕ → ℚ) →
      (ℕ → ℚ → Random_Parameter_value) → Option (List Modified_Parameter)
  | [], _, _, _, _ => some []
  | p :: ps, num, dist, rng, runTrial =>
      match perturbed_calculations_single_parameter p.1 p.2 num dist rng runTrial,
        perturbed_calculations_all_parameters ps num dist rng runTrial with
      | some g, some gs => some (g :: gs)
      | _, _ => none

/-- `TMC_Mod_Param_object.__init__`: draws the per-parameter random value
for a TMC trial; only "uniform" and "normal" are implemented, any other
distribution name prints and exits (`sys.exit`). `pert_param_val` is left
`None` by the constructor. -/
structure TMC_Mod_Param_object where
  param_name : String
  unpert_param_val : ℚ
  pert_param_val : Option ℚ
  random_value : Option ℚ
deriving DecidableEq, Repr

/-- Constructor of `TMC_Mod_Param_object` (see the structure doc). -/
def TMC_Mod_Param_object.init (parameter_name : String)
    (unperturbed_param_val : ℚ) (distribution_flag : String) (rng : ℚ) :
    Option TMC_Mod_Param_object :=
  if distribution_flag = "uniform" then
    some { param_name := parameter_name
           unpert_param_val := unperturbed_param_val
           pert_param_val := none
           random_value := some
             ((|unperturbed_param_val| - (1 / 2) * |unperturbed_param_val|)
               + rng * ((|unperturbed_param_val| + (1 / 2) * |unperturbed_param_val|)
                   - (|unperturbed_param_val| - (1 / 2) * |unperturbed_param_val|))) }
  else if distribution_flag = "normal" then
    some { param_name := parameter_name
           unpert_param_val := unperturbed_param_val
           pert_param_val := none
           random_value := some rng }
  else
    none

/-- `TMC_Object.__init__` plus the fields populated during the trial. -/
structure TMC_Object where
  dictionary_unpert_param_name_val : List (String × ℚ)
  enumeration_rand_val : ℕ
  list_of_TMC_Mod_Param_objects : List TMC_Mod_Param_object
  ignored_events : Option ℕ
  perturbed_FY : List SummaryRow
  perturbed_GEF_results : List (String × ℚ)
  perturbed_TALYS_results : List (String × ℚ)
deriving DecidableEq, Repr

/-- The TMC scheduling loop of `Reaction.__init__`: one
`create_perturbed_TMC_FY` task per `n in range(number_of_randoms)`,
results collected as they complete (order abstracted to index order). -/
def TMC_trials (number_of_randoms : ℕ) (runTrial : ℕ → TMC_Object) :
    List TMC_Object :=
  (List.range number_of_randoms).map runTrial

/-- The `reaction_info` dictionary of `Reaction.__init__`. -/
structure ReactionInfo where
  MC_runs : ℕ
  Z_target : ℕ
  A_compound : ℕ
  E_reaction : ℚ
  num_of_rand : ℕ
deriving DecidableEq, Repr

/-- The `Reaction` aggregate: flags, parameter dictionary, the two trial
collections, and the baseline (unperturbed) results. -/
structure Reaction where
  distribution_flag : String
  With_TALYS_flag : Bool
  program_flag : String
  dictionary_unpert_param_name_val : List (String × ℚ)
  list_of_Mod_Param_objects : List Modified_Parameter
  list_of_TMC_Objects : List TMC_Object
  unperturbed_FY : List SummaryRow
  unperturbed_ignored_events : Option ℕ
  unperturbed_GEF_results : List (String × ℚ)
  unperturbed_TALYS_results : List (String × ℚ)
  reaction_info : ReactionInfo
deriving DecidableEq, Repr

/-- Name of the pickle file written at the end of `Reaction.__init__`:
`f'Z{Z_target}_A{A_compound}_n_E{E_reaction}MeV.pkl'`. -/
def pickle_file_name (Z_target A_compound : ℕ) (E_reaction : ℚ) : String :=
  "Z" ++ toString Z_target ++ "_A" ++ toString A_compound ++ "_n_E"
    ++ toString E_reaction ++ "MeV.pkl"

/-- The `McPUFF_Perturbed_Data` object: the deserialization entry point's
accumulating fields (class-level defaults `None`, the three lists set to
`[]` by the constructor before the folder scan). -/
structure McPUFF_Perturbed_Data where
  list_of_Mod_Param_objects : List Modified_Parameter
  list_of_TMC_Objects : List TMC_Object
  list_of_Reac_objects : List Reaction
  reaction_info : Option ReactionInfo
  dictionary_unpert_param_name_val : Option (List (String × ℚ))
  program_flag : Option String
  With_TALYS_flag : Option Bool
  unperturbed_FY : Option (List SummaryRow)
  unperturbed_ignored_events : Option (Option ℕ)
  unperturbed_GEF_results : Option (List (String × ℚ))
  unperturbed_TALYS_results : Option (List (String × ℚ))
deriving DecidableEq, Repr

/-- State of `McPUFF_Perturbed_Data.__init__` before the folder scan. -/
def McPUFF_Perturbed_Data.empty : McPUFF_Perturbed_Data :=
  ⟨[], [], [], none, none, none, none, none, none, none, none⟩

/-- Per-file body of the `McPUFF_Perturbed_Data.__init__` scan loop: a file
whose name starts with "TMC" has its deserialized `Reaction`'s fields
copied (lists extended); one starting with "Single" is appended whole to
`list_of_Reac_objects`; any other name prints and exits (`sys.exit`),
modelled by `none`. `reac_obj` stands for the `pickle.load` result. -/
def McPUFF_Perturbed_Data.load_file (self : McPUFF_Perturbed_Data)
    (file_name : String) (reac_obj : Reaction) : Option McPUFF_Perturbed_Data :=
  if file_name.take 3 = "TMC" then
    some { self with
      reaction_info := some reac_obj.reaction_info
      dictionary_unpert_param_name_val := some reac_obj.dictionary_unpert_param_name_val
      list_of_Mod_Param_objects :=
        self.list_of_Mod_Param_objects ++ reac_obj.list_of_Mod_Param_objects
      list_of_TMC_Objects := self.list_of_TMC_Objects ++ reac_obj.list_of_TMC_Objects
      program_flag := some reac_obj.program_flag
      With_TALYS_flag := some reac_obj.With_TALYS_flag
      unperturbed_FY := some reac_obj.unperturbed_FY
      unperturbed_ignored_events := some reac_obj.unperturbed_ignored_events
      unperturbed_GEF_results := some reac_obj.unperturbed_GEF_results
      unperturbed_TALYS_results := some reac_obj.unperturbed_TALYS_results }
  else if file_name.take 6 = "Single" then
    some { self with
      list_of_Reac_objects := self.list_of_Reac_objects ++ [reac_obj] }
  else
    none

/-- A small concrete TMC-mode campaign aggregate used by witnesses. -/
def exReac : Reaction :=
  { distribution_flag := "normal"
    With_TALYS_flag := false
    program_flag := "TMC"
    dictionary_unpert_param_name_val := [("_Delta_S0", 0)]
    list_of_Mod_Param_objects := []
    list_of_TMC_Objects :=
      [{ dictionary_unpert_param_name_val := [("_Delta_S0", 0)]
         enumeration_rand_val := 0
         list_of_TMC_Mod_Param_objects :=
           [{ param_name := "_Delta_S0", unpert_param_val := 0,
              pert_param_val := none, random_value := some 1 }]
         ignored_events := some 0
         perturbed_FY := []
         perturbed_GEF_results := []
         perturbed_TALYS_results := [] }]
    unperturbed_FY := [exRow1]
    unperturbed_ignored_events := some 0
    unperturbed_GEF_results := []
    unperturbed_TALYS_results := []
    reaction_info :=
      { MC_runs := 1, Z_target := 92, A_compound := 236, E_reaction := 3,
        num_of_rand := 1 } }

/-! Rounding lemmas. -/

theorem rhe_dist_le (x : ℚ) : |((rhe x : ℤ) : ℚ) - x| ≤ 1 / 2 := by
  unfold rhe
  have h0 : ((⌊x⌋ : ℤ) : ℚ) ≤ x := Int.floor_le x
  have h1 : x < ((⌊x⌋ : ℤ) : ℚ) + 1 := Int.lt_floor_add_one x
  split_ifs with hlt hgt hev
  · rw [abs_le]
    constructor <;> linarith
  · push_cast
    rw [abs_le]
    constructor <;> linarith
  · rw [abs_le]
    constructor <;> linarith
  · push_cast
    rw [abs_le]
    constructor <;> linarith

theorem round9_dist_le (x : ℚ) : |round9 x - x| ≤ 1 / (2 * 10 ^ 9) := by
  unfold round9
  have h := rhe_dist_le (x * 10 ^ 9)
  have heq : ((rhe (x * 10 ^ 9) : ℤ) : ℚ) / 10 ^ 9 - x
      = (((rhe (x * 10 ^ 9) : ℤ) : ℚ) - x * 10 ^ 9) / 10 ^ 9 := by
    field_simp
    ring
  rw [heq, abs_div, abs_of_pos (show (0:ℚ) < 10 ^ 9 by norm_num),
    div_le_iff₀ (show (0:ℚ) < 10 ^ 9 by norm_num)]
  calc |((rhe (x * 10 ^ 9) : ℤ) : ℚ) - x * 10 ^ 9| ≤ 1 / 2 := h
    _ = 1 / (2 * 10 ^ 9) * 10 ^ 9 := by norm_num

/-- C6 (amended): for a parameter outside the zero-nominal special set with
nonzero nominal value, a uniform magnitude r sampled from
[|v|(1−0.5), |v|(1+0.5)] yields the perturbed value round9(sign(v)·r),
whose absolute value lies within the sampled interval widened by the
9-decimal rounding slack 5·10⁻¹⁰ on each side; the sign of the nominal is
preserved whenever |v| > 10⁻⁹ (rounding can reach or cross zero only for
nominals at or below that scale). -/
theorem C6_uniform_sign_and_range (param_name : String) (v r : ℚ)
    (hname : param_name ∉ special_case_parameters) (hv : v ≠ 0)
    (hlo : |v| - (1 / 2) * |v| ≤ r) (hhi : r ≤ |v| + (1 / 2) * |v|) :
    create_perturbed_parameter_value param_name r v ("uniform") 0
        = some (round9 ((v / |v|) * r)) ∧
    |round9 ((v / |v|) * r)| ≤ |v| + (1 / 2) * |v| + 1 / (2 * 10 ^ 9) ∧
    |v| - (1 / 2) * |v| - 1 / (2 * 10 ^ 9) ≤ |round9 ((v / |v|) * r)| ∧
    (1 / 10 ^ 9 < |v| →
      (0 < v → 0 < round9 ((v / |v|) * r)) ∧
      (v < 0 → round9 ((v / |v|) * r) < 0)) := by
  have habsv : (0:ℚ) < |v| := abs_pos.2 hv
  have hr0 : 0 ≤ r := by linarith
  have hs : abs (v / |v|) = 1 := by
    rw [abs_div, abs_abs, div_self (ne_of_gt habsv)]
  have hyabs : abs ((v / |v|) * r) = r := by
    rw [abs_mul, hs, one_mul, abs_of_nonneg hr0]
  have hd := round9_dist_le ((v / |v|) * r)
  have habsdiff : abs (abs (round9 ((v / |v|) * r)) - r) ≤ 1 / (2 * 10 ^ 9) := by
    calc abs (abs (round9 ((v / |v|) * r)) - r)
        = abs (abs (round9 ((v / |v|) * r)) - abs ((v / |v|) * r)) := by rw [hyabs]
      _ ≤ abs (round9 ((v / |v|) * r) - (v / |v|) * r) := abs_abs_sub_abs_le_abs_sub _ _
      _ ≤ 1 / (2 * 10 ^ 9) := hd
  have hb := abs_le.1 habsdiff
  refine ⟨?_, by linarith [hb.1, hb.2], by linarith [hb.1, hb.2], ?_⟩
  · simp [create_perturbed_parameter_value, hname]
  · intro hvv
    have hrbig : 1 / (2 * 10 ^ 9) < r := by linarith
    have hdle := abs_le.1 hd
    constructor
    · intro hvpos
      have hvd : v / |v| = 1 := by
        rw [abs_of_pos hvpos, div_self (ne_of_gt hvpos)]
      rw [hvd, one_mul] at hdle ⊢
      linarith [hdle.1]
    · intro hvneg
      have hvd : v / |v| = -1 := by
        rw [abs_of_neg hvneg]
        have hvne : v ≠ 0 := ne_of_lt hvneg
        field_simp
      rw [hvd] at hdle ⊢
      have hy : (-1 : ℚ) * r = -r := by ring
      rw [hy] at hdle ⊢
      linarith [hdle.2]

/-- Witness for `C6_uniform_sign_and_range` at v = 4, r = 5. -/
theorem C6_uniform_sign_and_range_witness :
    (("P_DZ_Mean_S1") ∉ special_case_parameters) ∧ ((4 : ℚ) ≠ 0) ∧
    (|(4 : ℚ)| - (1 / 2) * |(4 : ℚ)| ≤ 5) ∧
    ((5 : ℚ) ≤ |(4 : ℚ)| + (1 / 2) * |(4 : ℚ)|) ∧
    (create_perturbed_parameter_value ("P_DZ_Mean_S1") 5 4 ("uniform") 0
        = some (round9 (((4 : ℚ) / |(4 : ℚ)|) * 5)) ∧
      |round9 (((4 : ℚ) / |(4 : ℚ)|) * 5)|
          ≤ |(4 : ℚ)| + (1 / 2) * |(4 : ℚ)| + 1 / (2 * 10 ^ 9) ∧
      |(4 : ℚ)| - (1 / 2) * |(4 : ℚ)| - 1 / (2 * 10 ^ 9)
          ≤ |round9 (((4 : ℚ) / |(4 : ℚ)|) * 5)| ∧
      (1 / 10 ^ 9 < |(4 : ℚ)| →
        (0 < (4 : ℚ) → 0 < round9 (((4 : ℚ) / |(4 : ℚ)|) * 5)) ∧
        ((4 : ℚ) < 0 → round9 (((4 : ℚ) / |(4 : ℚ)|) * 5) < 0))) := by
  have h1 : ("P_DZ_Mean_S1") ∉ special_case_parameters := by decide
  have h2 : (4 : ℚ) ≠ 0 := by norm_num
  have h3 : |(4 : ℚ)| - (1 / 2) * |(4 : ℚ)| ≤ 5 := by
    rw [abs_of_pos (show (0:ℚ) < 4 by norm_num)]
    norm_num
  have h4 : (5 : ℚ) ≤ |(4 : ℚ)| + (1 / 2) * |(4 : ℚ)| := by
    rw [abs_of_pos (show (0:ℚ) < 4 by norm_num)]
    norm_num
  exact ⟨h1, h2, h3, h4,
    C6_uniform_sign_and_range ("P_DZ_Mean_S1") 4 5 h1 h2 h3 h4⟩

/-- C6 (counterexample): with nominal v = 39/(5·10⁹) > 0, a legitimate
uniform draw (unit draw 194/195, giving magnitude r = 583/(5·10¹⁰), inside
[|v|·0.5, |v|·1.5] = [3.9·10⁻⁹, 1.17·10⁻⁸]) is rounded to 9 decimals as
1.2·10⁻⁸, which exceeds |v|(1+0.5): the claimed closed interval does not
contain every produced value. -/
theorem C6_counterexample :
    (("P_DZ_Mean_S1") ∉ special_case_parameters) ∧
    ((39 : ℚ) / 5000000000 ≠ 0) ∧
    ((Modified_Parameter.init ("P_DZ_Mean_S1") ((39 : ℚ) / 5000000000) 1 ("uniform")
        fun _ => 194 / 195).map fun mp => mp.list_of_rand_num)
      = some [583 / 50000000000] ∧
    create_perturbed_parameter_value ("P_DZ_Mean_S1") ((583 : ℚ) / 50000000000)
        ((39 : ℚ) / 5000000000) ("uniform") 0 = some (3 / 250000000) ∧
    ¬(|(3 : ℚ) / 250000000| ≤
        |(39 : ℚ) / 5000000000| + (1 / 2) * |(39 : ℚ) / 5000000000|) := by
  have habs : |(39 : ℚ) / 5000000000| = 39 / 5000000000 :=
    abs_of_pos (by norm_num)
  have hns : ("P_DZ_Mean_S1") ∉ special_case_parameters := by decide
  refine ⟨hns, by norm_num, ?_, ?_, ?_⟩
  · simp only [Modified_Parameter.init, if_pos rfl, Option.map_some, List.range_succ,
      List.range_zero, List.nil_append, List.map_cons, List.map_nil, habs]
    norm_num
  · have hstep : create_perturbed_parameter_value ("P_DZ_Mean_S1")
        ((583 : ℚ) / 50000000000) ((39 : ℚ) / 5000000000) ("uniform") 0
        = some (round9 ((((39 : ℚ) / 5000000000) / |(39 : ℚ) / 5000000000|)
            * ((583 : ℚ) / 50000000000))) := by
      simp [create_perturbed_parameter_value, hns]
    rw [hstep, habs, div_self (show (39 : ℚ) / 5000000000 ≠ 0 by norm_num), one_mul]
    unfold round9 rhe
    norm_num
  · rw [habs, abs_of_pos (show (0:ℚ) < 3 / 250000000 by norm_num)]
    norm_num

/-- C7: for every parameter in the zero-nominal special set and every
distribution flag (the three families and any unknown name alike), the
result of the perturber does not depend on the nominal-value argument;
and for "max-min" it equals round9(magnitude − 1). -/
theorem C7_special_independent_of_nominal (param_name : String)
    (hname : param_name ∈ special_case_parameters) (distribution_flag : String)
    (rand_num special_case_rand_num v w : ℚ) :
    create_perturbed_parameter_value param_name rand_num v distribution_flag
        special_case_rand_num
      = create_perturbed_parameter_value param_name rand_num w distribution_flag
          special_case_rand_num ∧
    create_perturbed_parameter_value param_name rand_num v ("max-min")
        special_case_rand_num = some (round9 (rand_num - 1)) := by
  constructor
  · simp [create_perturbed_parameter_value, hname]
  · simp [create_perturbed_parameter_value, hname]

/-- Witness for `C7_special_independent_of_nominal` at the special-case
parameter "kappa", nominals 5 and 7. -/
theorem C7_special_independent_of_nominal_witness :
    (("kappa") ∈ special_case_parameters) ∧
    (create_perturbed_parameter_value ("kappa") (3 / 2) 5 ("uniform") (1 / 4)
      = create_perturbed_parameter_value ("kappa") (3 / 2) 7 ("uniform") (1 / 4)) ∧
    (create_perturbed_parameter_value ("kappa") (3 / 2) 5 ("max-min") (1 / 4)
      = some (round9 ((3 : ℚ) / 2 - 1))) := by
  have h : ("kappa") ∈ special_case_parameters := by decide
  exact ⟨h,
    (C7_special_independent_of_nominal ("kappa") h ("uniform") (3 / 2) (1 / 4) 5 7).1,
    (C7_special_independent_of_nominal ("kappa") h ("uniform") (3 / 2) (1 / 4) 5 7).2⟩

/-- C5 (amended): requesting the max-min distribution never raises a
configuration error, whatever the requested trial count: the constructor
returns normally, the requested count is ignored, and the scale-factor
list is the fixed source-coded [1, 1.5] of length 2. -/
theorem C5_maxmin_fixed_list (param_name : String) (v : ℚ) (num_of_rands : ℕ)
    (rng : ℕ → ℚ) :
    Modified_Parameter.init param_name v num_of_rands ("max-min") rng
      = some { param_name := param_name, unpert_param_val := v,
               list_of_rand_num := [1, 3 / 2],
               list_of_Random_Parameter_Value_objects := [] } := by
  unfold Modified_Parameter.init
  rw [if_neg (by decide), if_neg (by decide), if_pos rfl]

/-- C5 (counterexample): with requested trial count 5, which differs from
the max-min scale-factor list length 2, the constructor still returns
normally with the length-2 list — no configuration error is raised before
(or after) trials start. -/
theorem C5_counterexample :
    (Modified_Parameter.init ("P_DZ_Mean_S1") 10 5 ("max-min") fun _ => 0).isSome
        = true ∧
    ((Modified_Parameter.init ("P_DZ_Mean_S1") 10 5 ("max-min") fun _ => 0).map
        fun mp => mp.list_of_rand_num.length) = some 2 ∧
    (5 : ℕ) ≠ 2 := by
  exact ⟨by decide, by decide, by decide⟩

theorem single_parameter_trial_count (key : String) (v : ℚ) (num : ℕ)
    (dist : String) (rng : ℕ → ℚ) (runTrial : ℕ → ℚ → Random_Parameter_value)
    (hdist : dist = "uniform" ∨ dist = "normal") :
    ((perturbed_calculations_single_parameter key v num dist rng runTrial).map
      fun mp => mp.list_of_Random_Parameter_Value_objects.length) = some num := by
  rcases hdist with rfl | rfl <;>
    simp [perturbed_calculations_single_parameter, Modified_Parameter.init,
      List.enum_length]

theorem all_parameters_group_count (params : List (String × ℚ)) (num : ℕ)
    (dist : String) (rng : ℕ → ℚ) (runTrial : ℕ → ℚ → Random_Parameter_value)
    (hdist : dist = "uniform" ∨ dist = "normal") :
    ∀ gs, perturbed_calculations_all_parameters params num dist rng runTrial
        = some gs →
      gs.length = params.length ∧
      ∀ g ∈ gs, g.list_of_Random_Parameter_Value_objects.length = num := by
  induction params with
  | nil =>
    intro gs hgs
    simp only [perturbed_calculations_all_parameters, Option.some.injEq] at hgs
    subst hgs
    exact ⟨rfl, by intro g hg; cases hg⟩
  | cons p ps ih =>
    intro gs hgs
    unfold perturbed_calculations_all_parameters at hgs
    cases hsingle : perturbed_calculations_single_parameter p.1 p.2 num dist rng
        runTrial with
    | none => rw [hsingle] at hgs; cases hgs
    | some g =>
      cases hrec : perturbed_calculations_all_parameters ps num dist rng runTrial with
      | none => rw [hsingle, hrec] at hgs; cases hgs
      | some gs0 =>
        rw [hsingle, hrec] at hgs
        simp only [Option.some.injEq] at hgs
        subst hgs
        obtain ⟨hlen0, hall0⟩ := ih gs0 hrec
        have hg : g.list_of_Random_Parameter_Value_objects.length = num := by
          have hh := single_parameter_trial_count p.1 p.2 num dist rng runTrial hdist
          rw [hsingle] at hh
          simpa using hh
        refine ⟨by simp [hlen0], ?_⟩
        intro g2 hg2
        rcases List.mem_cons.1 hg2 with rfl | hmem
        · exact hg
        · exact hall0 g2 hmem

/-- C4 (amended): for the uniform and normal families, every Parameter
Group receives exactly the requested number of trial entries, the number
of Parameter Groups equals the number of parameters, and the number of
TMC trials equals the requested count; for max-min, however, every
Parameter Group receives exactly 2 trial entries (the fixed scale-factor
list length), regardless of the requested count. -/
theorem C4_trial_counts (param_name : String) (v : ℚ) (num : ℕ) (rng : ℕ → ℚ)
    (runTrial : ℕ → ℚ → Random_Parameter_value) (dist : String)
    (hdist : dist = "uniform" ∨ dist = "normal")
    (params : List (String × ℚ)) (groups : List Modified_Parameter)
    (hgroups : perturbed_calculations_all_parameters params num dist rng runTrial
      = some groups) (tmcRun : ℕ → TMC_Object) :
    ((perturbed_calculations_single_parameter param_name v num dist rng runTrial).map
        fun mp => mp.list_of_Random_Parameter_Value_objects.length) = some num ∧
    ((perturbed_calculations_single_parameter param_name v num ("max-min") rng
        runTrial).map
        fun mp => mp.list_of_Random_Parameter_Value_objects.length) = some 2 ∧
    groups.length = params.length ∧
    (∀ g ∈ groups, g.list_of_Random_Parameter_Value_objects.length = num) ∧
    (TMC_trials num tmcRun).length = num := by
  obtain ⟨hlen, hall⟩ :=
    all_parameters_group_count params num dist rng runTrial hdist groups hgroups
  refine ⟨single_parameter_trial_count param_name v num dist rng runTrial hdist,
    ?_, hlen, hall, ?_⟩
  · simp [perturbed_calculations_single_parameter, Modified_Parameter.init]
  · simp [TMC_trials]

/-- Witness for `C4_trial_counts` with the uniform family, requested count
5 and an empty parameter dictionary for the group collection. -/
theorem C4_trial_counts_witness :
    (("uniform" : String) = "uniform" ∨ ("uniform" : String) = "normal") ∧
    (perturbed_calculations_all_parameters [] 5 ("uniform") (fun _ => 0)
        (fun n r => ⟨("P_DZ_Mean_S1"), 1, r, n⟩) = some []) ∧
    (((perturbed_calculations_single_parameter ("P_DZ_Mean_S1") 1 5 ("uniform")
          (fun _ => 0) fun n r => ⟨("P_DZ_Mean_S1"), 1, r, n⟩).map
        fun mp => mp.list_of_Random_Parameter_Value_objects.length) = some 5 ∧
      ((perturbed_calculations_single_parameter ("P_DZ_Mean_S1") 1 5 ("max-min")
          (fun _ => 0) fun n r => ⟨("P_DZ_Mean_S1"), 1, r, n⟩).map
        fun mp => mp.list_of_Random_Parameter_Value_objects.length) = some 2 ∧
      ([] : List Modified_Parameter).length = ([] : List (String × ℚ)).length ∧
      (∀ g ∈ ([] : List Modified_Parameter),
        g.list_of_Random_Parameter_Value_objects.length = 5) ∧
      (TMC_trials 5 fun _ =>
        ⟨[], 0, [], none, [], [], []⟩).length = 5) := by
  exact ⟨Or.inl rfl, rfl,
    C4_trial_counts ("P_DZ_Mean_S1") 1 5 (fun _ => 0)
      (fun n r => ⟨("P_DZ_Mean_S1"), 1, r, n⟩) ("uniform") (Or.inl rfl) [] []
      rfl (fun _ => ⟨[], 0, [], none, [], [], []⟩)⟩

/-- C4 (counterexample): with the max-min distribution and requested trial
count 5 the Parameter Group receives exactly 2 trial entries, not 5. -/
theorem C4_counterexample :
    ((perturbed_calculations_single_parameter ("P_DZ_Mean_S1") 10 5 ("max-min")
        (fun _ => 0) fun n r => ⟨("P_DZ_Mean_S1"), 10, r, n⟩).map
        fun mp => mp.list_of_Random_Parameter_Value_objects.length) = some 2 ∧
    (2 : ℕ) ≠ 5 := by
  exact ⟨by decide, by decide⟩

/-- C10: the TMC per-parameter trial constructor implements only the
"uniform" and "normal" families: any other distribution name — in
particular "max-min" — terminates the program as an unknown distribution
(modelled by `none`). -/
theorem C10_TMC_unknown_distribution (parameter_name : String) (v rng : ℚ)
    (dist : String) (h1 : dist ≠ "uniform") (h2 : dist ≠ "normal") :
    TMC_Mod_Param_object.init parameter_name v dist rng = none ∧
    TMC_Mod_Param_object.init parameter_name v ("max-min") rng = none := by
  unfold TMC_Mod_Param_object.init
  exact ⟨by rw [if_neg h1, if_neg h2], by rw [if_neg (by decide), if_neg (by decide)]⟩

/-- Witness for `C10_TMC_unknown_distribution` at the distribution name
"max-min". -/
theorem C10_TMC_unknown_distribution_witness :
    (("max-min" : String) ≠ "uniform") ∧ (("max-min" : String) ≠ "normal") ∧
    TMC_Mod_Param_object.init ("kappa") 0 ("max-min") (1 / 2) = none := by
  refine ⟨by decide, by decide, ?_⟩
  exact (C10_TMC_unknown_distribution ("kappa") 0 (1 / 2) ("max-min") (by decide)
    (by decide)).1

/-- C8 (amended): loading one campaign file through the deserialization
entry point — provided the file has been renamed with the "TMC" prefix
that the loader's documentation requires — under a faithful
deserialization of the opaque pickle graph (load ∘ dump = id, the pickle
contract) reconstructs the same trial list (hence the same number of
trials and the same per-trial perturbed parameter values) and the same
baseline fields. -/
theorem C8_round_trip {β : Type} (dump : Reaction → β) (load : β → Reaction)
    (r : Reaction) (hrt : load (dump r) = r) (file_name : String)
    (hname : file_name.take 3 = "TMC") :
    ∃ mpd : McPUFF_Perturbed_Data,
      McPUFF_Perturbed_Data.empty.load_file file_name (load (dump r)) = some mpd ∧
      mpd.list_of_TMC_Objects = r.list_of_TMC_Objects ∧
      mpd.list_of_Mod_Param_objects = r.list_of_Mod_Param_objects ∧
      mpd.list_of_TMC_Objects.length = r.list_of_TMC_Objects.length ∧
      ((mpd.list_of_TMC_Objects.map fun t =>
          t.list_of_TMC_Mod_Param_objects.map TMC_Mod_Param_object.random_value)
        = r.list_of_TMC_Objects.map fun t =>
            t.list_of_TMC_Mod_Param_objects.map TMC_Mod_Param_object.random_value) ∧
      mpd.unperturbed_FY = some r.unperturbed_FY ∧
      mpd.unperturbed_ignored_events = some r.unperturbed_ignored_events ∧
      mpd.unperturbed_GEF_results = some r.unperturbed_GEF_results ∧
      mpd.unperturbed_TALYS_results = some r.unperturbed_TALYS_results ∧
      mpd.reaction_info = some r.reaction_info := by
  rw [hrt]
  unfold McPUFF_Perturbed_Data.load_file McPUFF_Perturbed_Data.empty
  rw [if_pos hname]
  exact ⟨_, rfl, by simp, by simp, by simp, by simp, rfl, rfl, rfl, rfl, rfl⟩

/-- Witness for `C8_round_trip`: the identity serialization pair on the
concrete aggregate `exReac` and a file renamed "TMC_batch.pkl". -/
theorem C8_round_trip_witness :
    (("TMC_batch.pkl").take 3 = "TMC") ∧
    ((McPUFF_Perturbed_Data.empty.load_file ("TMC_batch.pkl") exReac).map
        fun mpd => mpd.list_of_TMC_Objects) = some exReac.list_of_TMC_Objects ∧
    ((McPUFF_Perturbed_Data.empty.load_file ("TMC_batch.pkl") exReac).map
        fun mpd => mpd.unperturbed_FY) = some (some exReac.unperturbed_FY) := by
  have hname : ("TMC_batch.pkl").take 3 = "TMC" := by decide
  obtain ⟨mpd, heq, htmc, hmods, hlen, hmap, hfy, hig, hgef, htalys, hinfo⟩ :=
    C8_round_trip (fun x : Reaction => x) (fun x : Reaction => x) exReac rfl
      ("TMC_batch.pkl") hname
  have heq2 : McPUFF_Perturbed_Data.empty.load_file ("TMC_batch.pkl") exReac
      = some mpd := heq
  refine ⟨hname, ?_, ?_⟩
  · rw [heq2]
    simp [htmc]
  · rw [heq2]
    simp [hfy]

/-- C8 (counterexample): the campaign is persisted at the end of
`Reaction.__init__` under the name Z{Z}_A{A}_n_E{E}MeV.pkl, which starts
with neither "TMC" nor "Single"; handing that very file to the
deserialization entry point terminates the program (`sys.exit`) instead
of reconstructing the aggregate — the round trip as claimed fails without
the rename step the loader's docstring asks of the user. -/
theorem C8_counterexample :
    ((pickle_file_name 92 236 3).take 3 ≠ "TMC") ∧
    ((pickle_file_name 92 236 3).take 6 ≠ "Single") ∧
    McPUFF_Perturbed_Data.empty.load_file (pickle_file_name 92 236 3) exReac
      = none := by
  refine ⟨by decide, by decide, ?_⟩
  unfold McPUFF_Perturbed_Data.load_file
  rw [if_neg (by decide), if_neg (by decide)]

end McPUFF
